import Mathlib

/-!
# Rate limiter: HTTP middleware over a counting store

A shallow embedding of `main.go` (the `RateLimiter` middleware), of
`database/redis/redis.go` (the Redis-backed store) and of the `MockDatabase`
of `test/rate-limiter_test.go`, followed by the properties proved about them.

Modelling conventions

* Go `string` is `String`. The only byte the code looks for is the comma, which
  is one character and part of no longer one, so cutting a header value at
  commas is the same on characters as on bytes.
* Go `int` (taken as 64 bits wide) and `int64` are `Int`. The middleware only
  compares counts; the one place where the code does arithmetic on a Go `int`,
  the `++` of `MockDatabase`, wraps at 64 bits explicitly. A Redis counter is
  a signed 64-bit integer: `INCR` on a counter holding `2^63 - 1` fails with an
  error reply and changes nothing.
* Go `error` is `Option Error`: `none` is `nil`.
* A store is a value of `Database σ`: its two methods take the store state
  `σ` and give back the returned pair `(int, error)` with the next state.
* The handler built by `Middleware` ends in exactly one of two ways, a call of
  `http.Error` followed by `return`, or the call `next.ServeHTTP(w, r)`; the
  model returns which one (`Outcome`) together with the next store state.
  The two `fmt.Println` lines only print and are left out.
* `script.Run(...).Result()` is a field of the client: the store methods are
  proved correct for every client, and the script itself is run on a model of
  the server (`INCR`, `EXPIRE`, the passing of time) by `scriptClient`.
-/

namespace ratelimiter

/-! ## `strings.Split` and request headers -/

/-- Fields of a character list cut at every occurrence of `sep`. -/
def splitChars (sep : Char) : List Char → List (List Char)
  | [] => [[]]
  | c :: cs =>
    if c = sep then [] :: splitChars sep cs
    else
      match splitChars sep cs with
      | [] => [[c]]
      | f :: fs => (c :: f) :: fs

/-- Go `strings.Split(s, sep)` for a one-character separator: the substrings
of `s` between the occurrences of `sep`, in order. -/
def strings.Split (s : String) (sep : Char) : List String :=
  (splitChars sep s.data).map String.mk

/-- Go `http.Header`, seen through `Get`: the first value stored under a key,
the empty string when the key is absent. -/
structure Header where
  Get : String → String

/-- Go `*http.Request`, as far as the middleware reads it. -/
structure Request where
  Header : Header

/-- A request carrying the two headers the middleware reads. -/
def mkRequest (xForwardedFor apiKey : String) : Request :=
  { Header := { Get := fun k =>
      if k = "X-Forwarded-For" then xForwardedFor
      else if k = "api_key" then apiKey else "" } }

/-! ## `main.go` -/

/-- Go `error` values, by their message. -/
abbrev Error := String

def http.StatusBadRequest : Nat := 400
def http.StatusTooManyRequests : Nat := 429
def http.StatusInternalServerError : Nat := 500

/-- The `Database` interface of `main.go`. -/
structure Database (σ : Type) where
  StoreIP : String → Int → σ → (Int × Option Error) × σ
  StoreToken : String → Int → σ → (Int × Option Error) × σ

/-- The `RateLimiter` struct of `main.go`. -/
structure RateLimiter (σ : Type) where
  IPTotalRequests : Int
  IPTimeRemaining : Int
  TokenTotalRequests : Int
  TokenTimeRemaining : Int
  db : Database σ

/-- The `RateLimiterConfig` struct of `main.go`. -/
structure RateLimiterConfig where
  MaxRequestsPerIP : Int := 2
  TimePerIP : Int := 1
  MaxRequestPerToken : Int := 3
  TimePerToken : Int := 1

/-- The constructor `New` of `main.go`. -/
def New {σ : Type} (cfg : RateLimiterConfig) (db : Database σ) : RateLimiter σ :=
  { IPTotalRequests := cfg.MaxRequestsPerIP
    IPTimeRemaining := cfg.TimePerIP
    TokenTotalRequests := cfg.MaxRequestPerToken
    TokenTimeRemaining := cfg.TimePerToken
    db := db }

/-- How one run of the handler ends. -/
inductive Outcome where
  /-- The call `http.Error(w, msg, code)` followed by `return`. -/
  | Error (msg : String) (code : Nat)
  /-- The call `next.ServeHTTP(w, r)`; nothing was written before it. -/
  | ServeHTTP
  /-- A run-time panic of the index expression `[0]`. -/
  | indexPanic
  deriving DecidableEq, Repr

/-- The status code written by the middleware itself, if any. -/
def Outcome.status : Outcome → Option Nat
  | .Error _ code => some code
  | .ServeHTTP => none
  | .indexPanic => none

/-- Whether the next handler was invoked. -/
def Outcome.nextInvoked : Outcome → Bool
  | .ServeHTTP => true
  | _ => false

def tooManyMsg : String :=
  "you have reached the maximum number of requests or actions allowed within a certain time frame"

/-- The handler `fn` built by `RateLimiter.Middleware` in `main.go`, run on
request `r` with the store in state `s`. -/
def Middleware {σ : Type} (rl : RateLimiter σ) (r : Request) (s : σ) : Outcome × σ :=
  match strings.Split (r.Header.Get "X-Forwarded-For") ',' with
  | [] => (Outcome.indexPanic, s)
  | ip :: _ =>
    let token := r.Header.Get "api_key"
    if token ≠ "" then
      match rl.db.StoreToken token rl.TokenTimeRemaining s with
      | ((count, err), s1) =>
        if err ≠ none then
          (Outcome.Error "error on redis database" http.StatusInternalServerError, s1)
        else if count > rl.TokenTotalRequests then
          (Outcome.Error tooManyMsg http.StatusTooManyRequests, s1)
        else (Outcome.ServeHTTP, s1)
    else if ip ≠ "" then
      match rl.db.StoreIP ip rl.IPTimeRemaining s with
      | ((count, err), s1) =>
        if err ≠ none then
          (Outcome.Error "error on redis database" http.StatusInternalServerError, s1)
        else if count > rl.IPTotalRequests then
          (Outcome.Error tooManyMsg http.StatusTooManyRequests, s1)
        else (Outcome.ServeHTTP, s1)
    else
      (Outcome.Error "No valid token or IP found" http.StatusBadRequest, s)

/-! ## `test/rate-limiter_test.go`: the mock store -/

/-- Go `int` arithmetic: the result of an operation reduced to 64 bits, signed. -/
def wrapInt (x : Int) : Int := (x + 2 ^ 63) % 2 ^ 64 - 2 ^ 63

/-- The `MockDatabase` struct of the tests; a Go map read at a missing key
gives 0. -/
structure MockDatabase where
  ipCounts : String → Int
  tokenCounts : String → Int
  ipErr : Option Error
  tokenErr : Option Error

/-- The constructor `newMockDB` of the tests. -/
def newMockDB : MockDatabase :=
  { ipCounts := fun _ => 0, tokenCounts := fun _ => 0, ipErr := none, tokenErr := none }

def MockDatabase.StoreIP (ip : String) (_expireSec : Int) (m : MockDatabase) :
    (Int × Option Error) × MockDatabase :=
  if m.ipErr ≠ none then ((0, m.ipErr), m)
  else
    let c := wrapInt (m.ipCounts ip + 1)
    ((c, none), { m with ipCounts := fun k => if k = ip then c else m.ipCounts k })

def MockDatabase.StoreToken (token : String) (_expireSec : Int) (m : MockDatabase) :
    (Int × Option Error) × MockDatabase :=
  if m.tokenErr ≠ none then ((0, m.tokenErr), m)
  else
    let c := wrapInt (m.tokenCounts token + 1)
    ((c, none), { m with tokenCounts := fun k => if k = token then c else m.tokenCounts k })

/-- The configuration the tests build: the two limits, both windows 60 seconds. -/
def testConfig (maxRequestsPerIP maxRequestPerToken : Int) : RateLimiterConfig :=
  { MaxRequestsPerIP := maxRequestsPerIP
    TimePerIP := 60
    MaxRequestPerToken := maxRequestPerToken
    TimePerToken := 60 }

/-- The mock store as a `Database`. -/
def mockDatabase : Database MockDatabase :=
  { StoreIP := MockDatabase.StoreIP, StoreToken := MockDatabase.StoreToken }

/-- One call made on a `Database`. -/
inductive Call where
  | StoreIP (ip : String) (expireSec : Int)
  | StoreToken (token : String) (expireSec : Int)
  deriving DecidableEq, Repr

/-- A store that behaves as `db` and appends every call it receives to a log,
in the way a test double records its calls. -/
def recording {σ : Type} (db : Database σ) : Database (σ × List Call) :=
  { StoreIP := fun ip expireSec sl =>
      ((db.StoreIP ip expireSec sl.1).1,
        ((db.StoreIP ip expireSec sl.1).2, sl.2 ++ [Call.StoreIP ip expireSec]))
    StoreToken := fun token expireSec sl =>
      ((db.StoreToken token expireSec sl.1).1,
        ((db.StoreToken token expireSec sl.1).2, sl.2 ++ [Call.StoreToken token expireSec])) }

/-- The limiter `rl` with its store replaced by the recording one. -/
def RateLimiter.recorded {σ : Type} (rl : RateLimiter σ) : RateLimiter (σ × List Call) :=
  { IPTotalRequests := rl.IPTotalRequests
    IPTimeRemaining := rl.IPTimeRemaining
    TokenTotalRequests := rl.TokenTotalRequests
    TokenTimeRemaining := rl.TokenTimeRemaining
    db := recording rl.db }

/-! ## Repeated requests -/

/-- Store state after `n` runs of the handler on the request `r`. -/
def serveN {σ : Type} (rl : RateLimiter σ) (r : Request) : Nat → σ → σ
  | 0, s => s
  | n + 1, s => (Middleware rl r (serveN rl r n s)).2

/-- How request number `n + 1` of the same request `r` ends. -/
def nthOutcome {σ : Type} (rl : RateLimiter σ) (r : Request) (n : Nat) (s : σ) : Outcome :=
  (Middleware rl r (serveN rl r n s)).1

/-- Store state after `n` successive runs of one store operation. -/
def callN {σ : Type} (op : σ → (Int × Option Error) × σ) : Nat → σ → σ
  | 0, s => s
  | n + 1, s => (op (callN op n s)).2

/-- The operation `op`, started in `s`, returns 1, 2, 3, ... without error on
its first `upto` successive calls. -/
def CountsFrom {σ : Type} (op : σ → (Int × Option Error) × σ) (s : σ) (upto : Nat) : Prop :=
  ∀ n, n < upto → (op (callN op n s)).1 = ((n : Int) + 1, none)

/-- The outcome the handler draws from the pair a store call returned and the
limit of the selected policy. -/
def decision (res : Int × Option Error) (max : Int) : Outcome :=
  if res.2 ≠ none then Outcome.Error "error on redis database" http.StatusInternalServerError
  else if res.1 > max then Outcome.Error tooManyMsg http.StatusTooManyRequests
  else Outcome.ServeHTTP

/-! ## Spec-side notions on header values -/

/-- The part of a header value before its first comma, all of it when it has
no comma. -/
def beforeFirstComma (h : String) : String :=
  String.mk (h.data.takeWhile (fun c => c ≠ ','))

/-- A string with leading and trailing white space removed. -/
def trimSpace (s : String) : String :=
  String.mk ((s.data.dropWhile Char.isWhitespace).reverse.dropWhile Char.isWhitespace).reverse

/-- The first comma-separated element of the forwarding header of `r`. -/
def firstElement (r : Request) : Option String :=
  (strings.Split (r.Header.Get "X-Forwarded-For") ',').head?

/-! ## `database/redis/redis.go` -/

/-- The value that `script.Run(...).Result()` returns, by its dynamic type. -/
inductive Value where
  /-- The nil interface value, as returned next to a non-nil error. -/
  | nil
  | int64 (n : Int)
  | string (s : String)
  | bool (b : Bool)
  | slice (xs : List Value)

/-- The `*redis.Client` as the two store methods use it: the one call
`script.Run(ctx, client, []string{key}, expire).Result()` of the
increment-and-expire script, on a server in state `σ`. -/
structure Client (σ : Type) where
  RunScript : String → Int → σ → (Value × Option Error) × σ

/-- The `RedisClient` struct of `redis.go`. -/
structure RedisClient (σ : Type) where
  client : Client σ
  IPKeyPrefix : String
  TokenKeyPrefix : String

/-- The `RedisConfig` struct of `redis.go`, its key fields with their defaults. -/
structure RedisConfig where
  IPKeyPrefix : String := "/rl/ip/"
  TokenKeyPrefix : String := "/rl/token/"

/-- The constructor `New` of `redis.go`, given the client it builds. -/
def database.New {σ : Type} (cfg : RedisConfig) (redisClient : Client σ) : RedisClient σ :=
  { client := redisClient
    IPKeyPrefix := cfg.IPKeyPrefix
    TokenKeyPrefix := cfg.TokenKeyPrefix }

/-- The method `StoreIP` of `redis.go`. -/
def RedisClient.StoreIP {σ : Type} (r : RedisClient σ) (ip : String) (expireSec : Int) (s : σ) :
    (Int × Option Error) × σ :=
  let expire := expireSec
  match r.client.RunScript (r.IPKeyPrefix ++ ip) expire s with
  | ((result, err), s1) =>
    if err ≠ none then ((0, err), s1)
    else
      match result with
      | Value.int64 count => ((count, none), s1)
      | _ => ((0, none), s1)

/-- The method `StoreToken` of `redis.go`. -/
def RedisClient.StoreToken {σ : Type} (r : RedisClient σ) (token : String) (expireSec : Int)
    (s : σ) : (Int × Option Error) × σ :=
  let expire := expireSec
  match r.client.RunScript (r.TokenKeyPrefix ++ token) expire s with
  | ((result, err), s1) =>
    if err ≠ none then ((0, err), s1)
    else
      match result with
      | Value.int64 count => ((count, none), s1)
      | _ => ((0, none), s1)

/-- A `RedisClient` as a `Database` (the assertion `var _ rl.Database = ...`). -/
def RedisClient.database {σ : Type} (r : RedisClient σ) : Database σ :=
  { StoreIP := r.StoreIP, StoreToken := r.StoreToken }

/-! ## The store behind the script

The server state is a map from key to a counter and the seconds it has left to
live, when a time-to-live is armed. The script runs as one step. -/

/-- One stored counter. -/
structure Entry where
  count : Int
  ttl : Option Int
  deriving DecidableEq, Repr

/-- The key space of the server. -/
abbrev Store := String → Option Entry

/-- The store holding no key. -/
def Store.empty : Store := fun _ => none

/-- The store `st` with `key` bound to `v`. -/
def Store.set (st : Store) (key : String) (v : Option Entry) : Store :=
  fun k => if k = key then v else st k

/-- The largest value a Redis counter can hold, `2^63 - 1`. -/
def maxInt64 : Int := 9223372036854775807

/-- The error a script run gives when its `INCR` is refused. -/
def overflowErr : Error := "ERR increment or decrement would overflow"

/-- Redis `INCR key`: a missing key counts as 0; the time-to-live is kept. On a
counter that already holds the largest value the command is refused (`none`)
and the store is left as it was. -/
def INCR (key : String) (st : Store) : Option Int × Store :=
  match st key with
  | none => (some 1, st.set key (some { count := 1, ttl := none }))
  | some e =>
    if e.count < maxInt64 then
      (some (e.count + 1), st.set key (some { count := e.count + 1, ttl := e.ttl }))
    else (none, st)

/-- Redis `EXPIRE key seconds`: arms the time-to-live of an existing key; a
time-out that is not positive deletes the key. -/
def EXPIRE (key : String) (seconds : Int) (st : Store) : Int × Store :=
  match st key with
  | none => (0, st)
  | some e =>
    if seconds ≤ 0 then (1, st.set key none)
    else (1, st.set key (some { count := e.count, ttl := some seconds }))

/-- The script of `StoreIP` and `StoreToken`, run on `KEYS[1] = key` and
`ARGV[1] = arg`: `local current = redis.call("INCR", KEYS[1])`, then
`if current == 1 then redis.call("EXPIRE", KEYS[1], ARGV[1]) end`, then
`return current`. A refused `redis.call` aborts the script (`none`). -/
def script (key : String) (arg : Int) (st : Store) : Option Int × Store :=
  match INCR key st with
  | (none, st1) => (none, st1)
  | (some current, st1) =>
    if current = 1 then (some current, (EXPIRE key arg st1).2)
    else (some current, st1)

/-- A client connected to the model server: the reply of a completed script is
the integer it returns, an aborted script gives a nil value with an error. -/
def scriptClient : Client Store :=
  { RunScript := fun key expire st =>
      match script key expire st with
      | (some current, st1) => ((Value.int64 current, none), st1)
      | (none, st1) => ((Value.nil, some overflowErr), st1) }

/-- The passing of `seconds` seconds: every armed time-to-live decreases, and a
key whose time-to-live has run out is removed. -/
def elapse (seconds : Nat) (st : Store) : Store :=
  fun k =>
    match st k with
    | none => none
    | some e =>
      match e.ttl with
      | none => some e
      | some t =>
        if t ≤ (seconds : Int) then none
        else some { count := e.count, ttl := some (t - seconds) }

/-- One event in the life of the store behind the client `rc`. -/
inductive Step where
  | StoreIP (ip : String) (expireSec : Int)
  | StoreToken (token : String) (expireSec : Int)
  | elapse (seconds : Nat)
  deriving DecidableEq, Repr

/-- A bump carries a window of at least one second. -/
def Step.ok : Step → Bool
  | .StoreIP _ e => decide (1 ≤ e)
  | .StoreToken _ e => decide (1 ≤ e)
  | .elapse _ => true

/-- The effect of one event on the store. -/
def Step.apply (rc : RedisClient Store) : Step → Store → Store
  | .StoreIP ip e, st => (rc.StoreIP ip e st).2
  | .StoreToken token e, st => (rc.StoreToken token e st).2
  | .elapse d, st => ratelimiter.elapse d st

/-- The store after a history of events, oldest first. -/
def runSteps (rc : RedisClient Store) : List Step → Store → Store
  | [], st => st
  | x :: xs, st => runSteps rc xs (x.apply rc st)

/-- The count a bump of `key` returns: one more than the stored count, a
missing key counting as 0. -/
def nextCount (st : Store) (key : String) : Int :=
  match st key with
  | none => 1
  | some e => e.count + 1

/-- What a bump of `key` returns: the next count when it fits a counter, count 0
with the error of the refused `INCR` when it does not. -/
def bumpReply (st : Store) (key : String) : Int × Option Error :=
  if nextCount st key ≤ maxInt64 then (nextCount st key, none) else (0, some overflowErr)

/-- Every key present holds a count of at least 1 and has a time-to-live armed,
with time left. -/
def Armed (st : Store) : Prop :=
  ∀ k ent, st k = some ent → 1 ≤ ent.count ∧ ∃ t, ent.ttl = some t ∧ 0 < t

/-- The time-to-live armed on `key`, if the key is present and has one. -/
def Store.ttl (st : Store) (key : String) : Option Int :=
  (st key).bind Entry.ttl

/-- A client whose script runs complete without error but reply with a status
string instead of an integer. -/
def stringClient : Client Unit :=
  { RunScript := fun _ _ s => ((Value.string "OK", none), s) }

end ratelimiter

namespace ratelimiter

/-! ## Lemmas on `strings.Split` -/

theorem splitChars_eq_cons (sep : Char) (cs : List Char) :
    ∃ rest, splitChars sep cs = cs.takeWhile (fun c => c ≠ sep) :: rest := by
  induction cs with
  | nil => exact ⟨[], rfl⟩
  | cons c cs ih =>
    obtain ⟨rest, hrest⟩ := ih
    by_cases hc : c = sep
    · exact ⟨splitChars sep cs, by simp [splitChars, hc]⟩
    · exact ⟨rest, by simp [splitChars, hc, hrest]⟩

theorem Split_eq_cons (h : String) :
    ∃ rest, strings.Split h ',' = beforeFirstComma h :: rest := by
  obtain ⟨rest, hrest⟩ := splitChars_eq_cons ',' h.data
  exact ⟨rest.map String.mk, by simp [strings.Split, beforeFirstComma, hrest]⟩

theorem firstElement_eq (r : Request) :
    firstElement r = some (beforeFirstComma (r.Header.Get "X-Forwarded-For")) := by
  obtain ⟨rest, hrest⟩ := Split_eq_cons (r.Header.Get "X-Forwarded-For")
  simp [firstElement, hrest]

/-! ## The three paths of the handler -/

theorem Middleware_token {σ : Type} (rl : RateLimiter σ) (r : Request) (s : σ)
    (htoken : r.Header.Get "api_key" ≠ "") :
    Middleware rl r s =
      (decision (rl.db.StoreToken (r.Header.Get "api_key") rl.TokenTimeRemaining s).1
          rl.TokenTotalRequests,
        (rl.db.StoreToken (r.Header.Get "api_key") rl.TokenTimeRemaining s).2) := by
  obtain ⟨rest, hrest⟩ := Split_eq_cons (r.Header.Get "X-Forwarded-For")
  unfold Middleware decision
  rw [hrest]
  simp only [htoken, ne_eq, not_false_eq_true, if_true]
  split_ifs <;> rfl

theorem Middleware_ip {σ : Type} (rl : RateLimiter σ) (r : Request) (s : σ) (ip : String)
    (htoken : r.Header.Get "api_key" = "") (hfirst : firstElement r = some ip) (hip : ip ≠ "") :
    Middleware rl r s =
      (decision (rl.db.StoreIP ip rl.IPTimeRemaining s).1 rl.IPTotalRequests,
        (rl.db.StoreIP ip rl.IPTimeRemaining s).2) := by
  obtain ⟨rest, hrest⟩ := Split_eq_cons (r.Header.Get "X-Forwarded-For")
  have hip2 : beforeFirstComma (r.Header.Get "X-Forwarded-For") = ip := by
    rw [firstElement_eq] at hfirst
    exact Option.some.inj hfirst
  unfold Middleware decision
  rw [hrest, hip2]
  simp only [htoken, hip, ne_eq, not_true_eq_false, not_false_eq_true, if_true, if_false]
  split_ifs <;> rfl

theorem Middleware_noIdentity {σ : Type} (rl : RateLimiter σ) (r : Request) (s : σ)
    (htoken : r.Header.Get "api_key" = "") (hfirst : firstElement r = some "") :
    Middleware rl r s =
      (Outcome.Error "No valid token or IP found" http.StatusBadRequest, s) := by
  obtain ⟨rest, hrest⟩ := Split_eq_cons (r.Header.Get "X-Forwarded-For")
  have hip2 : beforeFirstComma (r.Header.Get "X-Forwarded-For") = "" := by
    rw [firstElement_eq] at hfirst
    exact Option.some.inj hfirst
  unfold Middleware
  rw [hrest, hip2]
  simp [htoken]

/-! ## The handler over a recording store -/

theorem recorded_token {σ : Type} (rl : RateLimiter σ) (r : Request) (s : σ) (log : List Call)
    (htoken : r.Header.Get "api_key" ≠ "") :
    Middleware rl.recorded r (s, log) =
      (decision (rl.db.StoreToken (r.Header.Get "api_key") rl.TokenTimeRemaining s).1
          rl.TokenTotalRequests,
        ((rl.db.StoreToken (r.Header.Get "api_key") rl.TokenTimeRemaining s).2,
          log ++ [Call.StoreToken (r.Header.Get "api_key") rl.TokenTimeRemaining])) := by
  rw [Middleware_token rl.recorded r (s, log) htoken]
  rfl

theorem recorded_ip {σ : Type} (rl : RateLimiter σ) (r : Request) (s : σ) (log : List Call)
    (ip : String) (htoken : r.Header.Get "api_key" = "") (hfirst : firstElement r = some ip)
    (hip : ip ≠ "") :
    Middleware rl.recorded r (s, log) =
      (decision (rl.db.StoreIP ip rl.IPTimeRemaining s).1 rl.IPTotalRequests,
        ((rl.db.StoreIP ip rl.IPTimeRemaining s).2,
          log ++ [Call.StoreIP ip rl.IPTimeRemaining])) := by
  rw [Middleware_ip rl.recorded r (s, log) ip htoken hfirst hip]
  rfl

theorem decision_of_error (res : Int × Option Error) (max : Int) (herr : res.2 ≠ none) :
    decision res max = Outcome.Error "error on redis database" http.StatusInternalServerError := by
  simp [decision, herr]

theorem decision_of_count (c max : Int) :
    decision (c, none) max =
      if c > max then Outcome.Error tooManyMsg http.StatusTooManyRequests
      else Outcome.ServeHTTP := by
  simp [decision]

/-! ## Claims about the handler -/

/-- C3: for every limiter configuration and every store state, a request whose
`api_key` header is empty and whose `X-Forwarded-For` first comma-separated
element is empty is answered with 400 Bad Request, the next handler is not
invoked, no store method is called (the call log stays as it was) and the store
state is unchanged. -/
theorem C3_no_identity_is_bad_request {σ : Type} (rl : RateLimiter σ) (r : Request) (s : σ)
    (log : List Call) (htoken : r.Header.Get "api_key" = "")
    (hfirst : firstElement r = some "") :
    Middleware rl r s = (Outcome.Error "No valid token or IP found" 400, s) ∧
    Middleware rl.recorded r (s, log) =
      (Outcome.Error "No valid token or IP found" 400, (s, log)) ∧
    (Middleware rl r s).1.status = some 400 ∧
    (Middleware rl r s).1.nextInvoked = false := by
  have h1 := Middleware_noIdentity rl r s htoken hfirst
  have h2 := Middleware_noIdentity rl.recorded r (s, log) htoken hfirst
  refine ⟨h1, h2, ?_, ?_⟩ <;> rw [h1] <;> rfl

/-- Witness of C3: both headers absent, the default configuration, the fresh mock
store. -/
theorem C3_no_identity_is_bad_request_witness :
    (mkRequest "" "").Header.Get "api_key" = "" ∧
    firstElement (mkRequest "" "") = some "" ∧
    Middleware (New {} mockDatabase) (mkRequest "" "") newMockDB =
      (Outcome.Error "No valid token or IP found" 400, newMockDB) ∧
    Middleware (New {} mockDatabase).recorded (mkRequest "" "") (newMockDB, []) =
      (Outcome.Error "No valid token or IP found" 400, (newMockDB, [])) ∧
    (Middleware (New {} mockDatabase) (mkRequest "" "") newMockDB).1.status = some 400 ∧
    (Middleware (New {} mockDatabase) (mkRequest "" "") newMockDB).1.nextInvoked = false :=
  ⟨by decide, by decide,
    C3_no_identity_is_bad_request (New {} mockDatabase) (mkRequest "" "") newMockDB []
      (by decide) (by decide)⟩

/-- C2: for every request whose `api_key` token is non-empty, whatever its
`X-Forwarded-For` value is, the handler calls `StoreToken` exactly once with
`(token, TokenTimeRemaining)` and never `StoreIP` (the log grows by that one
call, the mock's IP counters are left as they were), and its outcome is the
decision on the returned pair against `TokenTotalRequests` only. With token
limit 1 and IP limit 2, the second request carrying both token "token123" and
IP "1.2.3.4" is rejected with 429 although the IP counter is still 0 and a
request carrying the IP alone is let through. -/
theorem C2_token_takes_priority {σ : Type} (rl : RateLimiter σ) (r : Request) (s : σ)
    (log : List Call) (htoken : r.Header.Get "api_key" ≠ "") :
    (Middleware rl.recorded r (s, log)).2.2 =
        log ++ [Call.StoreToken (r.Header.Get "api_key") rl.TokenTimeRemaining] ∧
    (Middleware rl.recorded r (s, log)).2.1 = (Middleware rl r s).2 ∧
    (Middleware rl.recorded r (s, log)).1 = (Middleware rl r s).1 ∧
    (Middleware rl r s).2 =
        (rl.db.StoreToken (r.Header.Get "api_key") rl.TokenTimeRemaining s).2 ∧
    (Middleware rl r s).1 =
        decision (rl.db.StoreToken (r.Header.Get "api_key") rl.TokenTimeRemaining s).1
          rl.TokenTotalRequests ∧
    (∀ (cfg : RateLimiterConfig) (m : MockDatabase),
        (Middleware (New cfg mockDatabase) r m).2.ipCounts = m.ipCounts) ∧
    nthOutcome (New (testConfig 2 1) mockDatabase) (mkRequest "1.2.3.4" "token123") 0 newMockDB =
      Outcome.ServeHTTP ∧
    nthOutcome (New (testConfig 2 1) mockDatabase) (mkRequest "1.2.3.4" "token123") 1 newMockDB =
      Outcome.Error tooManyMsg 429 ∧
    (serveN (New (testConfig 2 1) mockDatabase) (mkRequest "1.2.3.4" "token123") 2
        newMockDB).ipCounts "1.2.3.4" = 0 ∧
    (Middleware (New (testConfig 2 1) mockDatabase) (mkRequest "1.2.3.4" "")
      (serveN (New (testConfig 2 1) mockDatabase) (mkRequest "1.2.3.4" "token123") 2
        newMockDB)).1 = Outcome.ServeHTTP := by
  have h1 := recorded_token rl r s log htoken
  have h2 := Middleware_token rl r s htoken
  refine ⟨by rw [h1], by rw [h1, h2], by rw [h1, h2], by rw [h2], by rw [h2], ?_,
    by decide, by decide, by decide, by decide⟩
  intro cfg m
  rw [Middleware_token (New cfg mockDatabase) r m htoken]
  simp only [New, mockDatabase, MockDatabase.StoreToken]
  split_ifs <;> rfl

/-- Witness of C2: the first request of the test `IPAndToken_PrioritizeToken`. -/
theorem C2_token_takes_priority_witness :
    (mkRequest "1.2.3.4" "token123").Header.Get "api_key" ≠ "" ∧
    (Middleware (New (testConfig 2 1) mockDatabase).recorded (mkRequest "1.2.3.4" "token123")
        (newMockDB, [])).2.2 = [Call.StoreToken "token123" 60] :=
  ⟨by decide,
    (C2_token_takes_priority (New (testConfig 2 1) mockDatabase)
      (mkRequest "1.2.3.4" "token123") newMockDB [] (by decide)).1⟩

/-- C4: for every request with a selected identity (token path, or IP path when
the token is empty), if the store call of that path returns a non-nil error,
whatever count comes with it, the handler answers 500 Internal Server Error,
does not invoke the next handler, does not answer 429, and that call is the only
store call it makes (no retry, no fall-back from the token counter to the IP
counter). -/
theorem C4_store_error_is_internal_error {σ : Type} (rl : RateLimiter σ) (r : Request) (s : σ)
    (log : List Call) (call : Call)
    (h : (r.Header.Get "api_key" ≠ "" ∧
          call = Call.StoreToken (r.Header.Get "api_key") rl.TokenTimeRemaining ∧
          (rl.db.StoreToken (r.Header.Get "api_key") rl.TokenTimeRemaining s).1.2 ≠ none) ∨
        (r.Header.Get "api_key" = "" ∧
          ∃ ip, firstElement r = some ip ∧ ip ≠ "" ∧
            call = Call.StoreIP ip rl.IPTimeRemaining ∧
            (rl.db.StoreIP ip rl.IPTimeRemaining s).1.2 ≠ none)) :
    (Middleware rl r s).1 = Outcome.Error "error on redis database" 500 ∧
    (Middleware rl.recorded r (s, log)).1 = Outcome.Error "error on redis database" 500 ∧
    (Middleware rl.recorded r (s, log)).2.2 = log ++ [call] ∧
    (Middleware rl r s).1.status = some 500 ∧
    (Middleware rl r s).1.status ≠ some 429 ∧
    (Middleware rl r s).1.nextInvoked = false := by
  rcases h with ⟨htoken, hcall, herr⟩ | ⟨htoken, ip, hfirst, hip, hcall, herr⟩
  · have h1 := recorded_token rl r s log htoken
    have h2 := Middleware_token rl r s htoken
    rw [decision_of_error _ _ herr] at h1 h2
    rw [h1, h2, hcall]
    exact ⟨rfl, rfl, rfl, rfl, by simp [Outcome.status, http.StatusInternalServerError], rfl⟩
  · have h1 := recorded_ip rl r s log ip htoken hfirst hip
    have h2 := Middleware_ip rl r s ip htoken hfirst hip
    rw [decision_of_error _ _ herr] at h1 h2
    rw [h1, h2, hcall]
    exact ⟨rfl, rfl, rfl, rfl, by simp [Outcome.status, http.StatusInternalServerError], rfl⟩

/-- Witness of C4: the tests `DatabaseErrorOnToken` and `DatabaseErrorOnIP`. -/
theorem C4_store_error_is_internal_error_witness :
    (Middleware (New (testConfig 2 2) mockDatabase).recorded (mkRequest "" "token123")
        ({ newMockDB with tokenErr := some "db error" }, [])).2.2 =
      [Call.StoreToken "token123" 60] ∧
    (Middleware (New (testConfig 2 2) mockDatabase) (mkRequest "1.2.3.4" "")
        { newMockDB with ipErr := some "db error" }).1.status = some 500 :=
  ⟨(C4_store_error_is_internal_error (New (testConfig 2 2) mockDatabase) (mkRequest "" "token123")
      { newMockDB with tokenErr := some "db error" } [] (Call.StoreToken "token123" 60)
      (Or.inl ⟨by decide, rfl, by decide⟩)).2.2.1,
    (C4_store_error_is_internal_error (New (testConfig 2 2) mockDatabase) (mkRequest "1.2.3.4" "")
      { newMockDB with ipErr := some "db error" } [] (Call.StoreIP "1.2.3.4" 60)
      (Or.inr ⟨by decide, "1.2.3.4", by decide, by decide, rfl, by decide⟩)).2.2.2.1⟩

/-! ## Repeated requests of one identity -/

theorem serveN_token {σ : Type} (rl : RateLimiter σ) (r : Request) (s : σ)
    (htoken : r.Header.Get "api_key" ≠ "") (n : Nat) :
    serveN rl r n s =
      callN (rl.db.StoreToken (r.Header.Get "api_key") rl.TokenTimeRemaining) n s := by
  induction n with
  | zero => rfl
  | succ n ih => simp only [serveN, callN, Middleware_token rl r _ htoken, ih]

theorem serveN_ip {σ : Type} (rl : RateLimiter σ) (r : Request) (s : σ) (ip : String)
    (htoken : r.Header.Get "api_key" = "") (hfirst : firstElement r = some ip) (hip : ip ≠ "")
    (n : Nat) :
    serveN rl r n s = callN (rl.db.StoreIP ip rl.IPTimeRemaining) n s := by
  induction n with
  | zero => rfl
  | succ n ih => simp only [serveN, callN, Middleware_ip rl r _ ip htoken hfirst hip, ih]

theorem decision_counting (n max : Nat) :
    decision (((n : Int) + 1, none) : Int × Option Error) (max : Int) =
      if n < max then Outcome.ServeHTTP else Outcome.Error tooManyMsg http.StatusTooManyRequests := by
  rw [decision_of_count]
  by_cases h : n < max
  · have h2 : ¬ ((n : Int) + 1 > (max : Int)) := by omega
    simp [h, h2]
  · have h2 : (n : Int) + 1 > (max : Int) := by omega
    simp [h, h2]

theorem wrapInt_of_small (x : Int) (h0 : 0 ≤ x) (h1 : x < 2 ^ 63) : wrapInt x = x := by
  unfold wrapInt
  norm_num at h1 ⊢
  omega

theorem mock_callN_token (token : String) (e : Int) (m : MockDatabase)
    (herr : m.tokenErr = none) (hzero : m.tokenCounts token = 0) (n : Nat)
    (hn : (n : Int) < 2 ^ 63) :
    (callN (mockDatabase.StoreToken token e) n m).tokenErr = none ∧
    (callN (mockDatabase.StoreToken token e) n m).tokenCounts token = n := by
  induction n with
  | zero => exact ⟨herr, by simpa using hzero⟩
  | succ n ih =>
    obtain ⟨h1, h2⟩ := ih (by push_cast at hn ⊢; omega)
    have hw : wrapInt ((n : Int) + 1) = (n : Int) + 1 :=
      wrapInt_of_small _ (by omega) (by push_cast at hn; omega)
    simp only [callN, mockDatabase, MockDatabase.StoreToken] at h1 h2 ⊢
    simp [h1, h2, hw]

theorem mock_callN_ip (ip : String) (e : Int) (m : MockDatabase)
    (herr : m.ipErr = none) (hzero : m.ipCounts ip = 0) (n : Nat)
    (hn : (n : Int) < 2 ^ 63) :
    (callN (mockDatabase.StoreIP ip e) n m).ipErr = none ∧
    (callN (mockDatabase.StoreIP ip e) n m).ipCounts ip = n := by
  induction n with
  | zero => exact ⟨herr, by simpa using hzero⟩
  | succ n ih =>
    obtain ⟨h1, h2⟩ := ih (by push_cast at hn ⊢; omega)
    have hw : wrapInt ((n : Int) + 1) = (n : Int) + 1 :=
      wrapInt_of_small _ (by omega) (by push_cast at hn; omega)
    simp only [callN, mockDatabase, MockDatabase.StoreIP] at h1 h2 ⊢
    simp [h1, h2, hw]

/-- The mock store, with no injected error and the token absent, returns
1, 2, 3, ... on successive `StoreToken` calls, as long as the count fits a Go
`int`. -/
theorem mock_counts_token (token : String) (e : Int) (m : MockDatabase)
    (herr : m.tokenErr = none) (hzero : m.tokenCounts token = 0) (upto : Nat)
    (hupto : (upto : Int) < 2 ^ 63) :
    CountsFrom (mockDatabase.StoreToken token e) m upto := by
  intro n hn
  obtain ⟨h1, h2⟩ := mock_callN_token token e m herr hzero n (by omega)
  have hw : wrapInt ((n : Int) + 1) = (n : Int) + 1 :=
    wrapInt_of_small _ (by omega) (by omega)
  simp only [mockDatabase, MockDatabase.StoreToken] at h1 h2 ⊢
  simp [h1, h2, hw]

/-- The same for `StoreIP`. -/
theorem mock_counts_ip (ip : String) (e : Int) (m : MockDatabase)
    (herr : m.ipErr = none) (hzero : m.ipCounts ip = 0) (upto : Nat)
    (hupto : (upto : Int) < 2 ^ 63) :
    CountsFrom (mockDatabase.StoreIP ip e) m upto := by
  intro n hn
  obtain ⟨h1, h2⟩ := mock_callN_ip ip e m herr hzero n (by omega)
  have hw : wrapInt ((n : Int) + 1) = (n : Int) + 1 :=
    wrapInt_of_small _ (by omega) (by omega)
  simp only [mockDatabase, MockDatabase.StoreIP] at h1 h2 ⊢
  simp [h1, h2, hw]

/-- C1: for every limit `max` (in particular every `max ≥ 1`) and every non-empty
identity (a token, or an IP with no token), when the handler runs repeatedly for
that identity against a store that returns 1, 2, 3, ... on the successive
`StoreToken` (resp. `StoreIP`) calls for it, each of the first `max` requests is
allowed (the next handler is invoked, nothing is written) and request number
`max + 1` is answered with 429 Too Many Requests without invoking the next
handler. The limit compared with is `TokenTotalRequests` for a token and
`IPTotalRequests` for an IP. -/
theorem C1_first_max_allowed_then_429 {σ : Type} (rl : RateLimiter σ) (r : Request) (s0 : σ)
    (max : Nat)
    (hid : (r.Header.Get "api_key" ≠ "" ∧ rl.TokenTotalRequests = (max : Int) ∧
          CountsFrom (rl.db.StoreToken (r.Header.Get "api_key") rl.TokenTimeRemaining) s0
            (max + 1)) ∨
        (r.Header.Get "api_key" = "" ∧
          ∃ ip, firstElement r = some ip ∧ ip ≠ "" ∧ rl.IPTotalRequests = (max : Int) ∧
            CountsFrom (rl.db.StoreIP ip rl.IPTimeRemaining) s0 (max + 1))) :
    (∀ n, n < max →
      nthOutcome rl r n s0 = Outcome.ServeHTTP ∧
      (nthOutcome rl r n s0).status = none ∧
      (nthOutcome rl r n s0).nextInvoked = true) ∧
    nthOutcome rl r max s0 = Outcome.Error tooManyMsg 429 ∧
    (nthOutcome rl r max s0).status = some 429 ∧
    (nthOutcome rl r max s0).nextInvoked = false := by
  have key : ∀ n, n < max + 1 → nthOutcome rl r n s0 =
      if n < max then Outcome.ServeHTTP
      else Outcome.Error tooManyMsg http.StatusTooManyRequests := by
    intro n hn
    rcases hid with ⟨htoken, hlimit, hcount⟩ | ⟨htoken, ip, hfirst, hip, hlimit, hcount⟩
    · unfold nthOutcome
      rw [Middleware_token rl r _ htoken, serveN_token rl r s0 htoken, hcount n hn, hlimit]
      exact decision_counting n max
    · unfold nthOutcome
      rw [Middleware_ip rl r _ ip htoken hfirst hip, serveN_ip rl r s0 ip htoken hfirst hip,
        hcount n hn, hlimit]
      exact decision_counting n max
  refine ⟨?_, ?_⟩
  · intro n hn
    rw [key n (by omega), if_pos hn]
    exact ⟨rfl, rfl, rfl⟩
  · rw [key max (by omega), if_neg (by omega)]
    exact ⟨rfl, rfl, rfl⟩

/-- Witness of C1: the tests `TokenLimit` and `IPLimit`, limit 2 on the fresh
mock store; the third request is the rejected one. -/
theorem C1_first_max_allowed_then_429_witness :
    nthOutcome (New (testConfig 5 2) mockDatabase) (mkRequest "" "token123") 2 newMockDB =
      Outcome.Error tooManyMsg 429 ∧
    (∀ n, n < 2 →
      nthOutcome (New (testConfig 2 5) mockDatabase) (mkRequest "1.2.3.4" "") n newMockDB =
        Outcome.ServeHTTP ∧
      (nthOutcome (New (testConfig 2 5) mockDatabase) (mkRequest "1.2.3.4" "") n
        newMockDB).status = none ∧
      (nthOutcome (New (testConfig 2 5) mockDatabase) (mkRequest "1.2.3.4" "") n
        newMockDB).nextInvoked = true) :=
  ⟨(C1_first_max_allowed_then_429 (New (testConfig 5 2) mockDatabase)
      (mkRequest "" "token123") newMockDB 2
      (Or.inl ⟨by decide, rfl,
        mock_counts_token "token123" 60 newMockDB rfl rfl 3 (by norm_num)⟩)).2.1,
    (C1_first_max_allowed_then_429 (New (testConfig 2 5) mockDatabase)
      (mkRequest "1.2.3.4" "") newMockDB 2
      (Or.inr ⟨by decide, "1.2.3.4", by decide, by decide, rfl,
        mock_counts_ip "1.2.3.4" 60 newMockDB rfl rfl 3 (by norm_num)⟩)).1⟩

/-! ## Handler claims on the forwarding header -/

theorem beforeFirstComma_spec (h : String) :
    ',' ∉ (beforeFirstComma h).data ∧
    (h = beforeFirstComma h ∨ ∃ rest : String, h = beforeFirstComma h ++ "," ++ rest) := by
  constructor
  · intro hmem
    have := List.mem_takeWhile_imp hmem
    simp at this
  · by_cases hc : ',' ∈ h.data
    · right
      refine ⟨String.mk ((h.data.dropWhile (fun c => c ≠ ',')).drop 1), ?_⟩
      apply String.ext
      have hne : h.data.dropWhile (fun c => decide (c ≠ ',')) ≠ [] := by
        intro hnil
        rw [List.dropWhile_eq_nil_iff] at hnil
        have := hnil ',' hc
        simp at this
      have hhead : ∃ tl, h.data.dropWhile (fun c => decide (c ≠ ',')) = ',' :: tl := by
        cases hd : h.data.dropWhile (fun c => decide (c ≠ ',')) with
        | nil => exact absurd hd hne
        | cons x tl =>
          have hx := List.head_dropWhile_not (fun c => decide (c ≠ ',')) h.data hne
          simp only [hd, List.head_cons] at hx
          have : x = ',' := by simpa using hx
          exact ⟨tl, by rw [this]⟩
      obtain ⟨tl, htl⟩ := hhead
      have hsplit := List.takeWhile_append_dropWhile (fun c => decide (c ≠ ',')) h.data
      simp only [beforeFirstComma, String.data_append, htl, List.drop_succ_cons, List.drop_zero]
      rw [htl] at hsplit
      simpa using hsplit.symm
    · left
      apply String.ext
      simp only [beforeFirstComma]
      symm
      rw [List.takeWhile_eq_self_iff]
      intro c hcmem
      have : c ≠ ',' := fun hEq => hc (hEq ▸ hcmem)
      simpa using this

/-- C5, as stated, fails: with an empty token and the header value " " (resp.
"  ,1.2.3.4") the first element is empty after trimming white space, yet the
handler does not answer 400: it calls `StoreIP` with the untrimmed element and
lets the request through. -/
theorem C5_whitespace_element_counterexample :
    (mkRequest " " "").Header.Get "api_key" = "" ∧
    (firstElement (mkRequest " " "")).map trimSpace = some "" ∧
    Middleware (New {} mockDatabase).recorded (mkRequest " " "") (newMockDB, []) ≠
      (Outcome.Error "No valid token or IP found" 400, (newMockDB, [])) ∧
    (Middleware (New {} mockDatabase).recorded (mkRequest " " "") (newMockDB, [])).1 =
      Outcome.ServeHTTP ∧
    (Middleware (New {} mockDatabase).recorded (mkRequest " " "") (newMockDB, [])).2.2 =
      [Call.StoreIP " " 1] ∧
    (firstElement (mkRequest "  ,1.2.3.4" "")).map trimSpace = some "" ∧
    (Middleware (New {} mockDatabase).recorded (mkRequest "  ,1.2.3.4" "")
      (newMockDB, [])).1.status ≠ some 400 ∧
    (Middleware (New {} mockDatabase).recorded (mkRequest "  ,1.2.3.4" "")
      (newMockDB, [])).2.2 = [Call.StoreIP "  " 1] := by
  refine ⟨by decide, by decide, ?_, by decide, by decide, by decide, by decide, by decide⟩
  intro h
  have h2 := congrArg (fun x => x.1) h
  revert h2
  decide

/-- C5, amended: for every request with an empty `api_key` token, the handler
answers 400 Bad Request and makes no store call exactly when the first
comma-separated element of `X-Forwarded-For` is the empty string as it stands;
nothing is trimmed, and a non-empty first element, also one made of white space
only, is passed unchanged to `StoreIP` in one call and is not answered 400. -/
theorem C5_only_an_empty_element_is_no_ip {σ : Type} (rl : RateLimiter σ) (r : Request) (s : σ)
    (log : List Call) (ip : String) (htoken : r.Header.Get "api_key" = "")
    (hfirst : firstElement r = some ip) :
    (ip = "" →
      Middleware rl.recorded r (s, log) =
        (Outcome.Error "No valid token or IP found" 400, (s, log))) ∧
    (ip ≠ "" →
      (Middleware rl.recorded r (s, log)).2.2 = log ++ [Call.StoreIP ip rl.IPTimeRemaining] ∧
      (Middleware rl.recorded r (s, log)).2.1 = (rl.db.StoreIP ip rl.IPTimeRemaining s).2 ∧
      (Middleware rl.recorded r (s, log)).1.status ≠ some 400) ∧
    ((Middleware rl.recorded r (s, log)).1.status = some 400 ↔ ip = "") := by
  have hyes : ip = "" → Middleware rl.recorded r (s, log) =
      (Outcome.Error "No valid token or IP found" 400, (s, log)) := by
    intro hip
    subst hip
    exact Middleware_noIdentity rl.recorded r (s, log) htoken hfirst
  have hno : ip ≠ "" → (Middleware rl.recorded r (s, log)).1.status ≠ some 400 := by
    intro hip
    rw [recorded_ip rl r s log ip htoken hfirst hip]
    simp only [decision]
    split_ifs <;> simp [Outcome.status, http.StatusInternalServerError,
      http.StatusTooManyRequests]
  refine ⟨hyes, ?_, ?_⟩
  · intro hip
    refine ⟨?_, ?_, hno hip⟩ <;> rw [recorded_ip rl r s log ip htoken hfirst hip]
  · constructor
    · intro h400
      by_contra hip
      exact hno hip h400
    · intro hip
      rw [hyes hip]
      rfl

/-- Witness of C5 amended: the header value " " with the default configuration. -/
theorem C5_only_an_empty_element_is_no_ip_witness :
    (mkRequest " " "").Header.Get "api_key" = "" ∧
    firstElement (mkRequest " " "") = some " " ∧
    ((Middleware (New {} mockDatabase).recorded (mkRequest " " "")
      (newMockDB, [])).1.status = some 400 ↔ " " = "") :=
  ⟨by decide, by decide,
    (C5_only_an_empty_element_is_no_ip (New {} mockDatabase) (mkRequest " " "") newMockDB []
      " " (by decide) (by decide)).2.2⟩

/-- C6: for every `X-Forwarded-For` value and empty `api_key` token, the only
store call the handler can make is `StoreIP` with exactly the part of the header
before its first comma (all of it when it has no comma), made when that part is
non-empty; and two requests whose headers agree up to the first comma end the
same way and leave the same store state (and the same call log) from the same
store state. -/
theorem C6_ip_is_the_part_before_the_first_comma {σ : Type} (rl : RateLimiter σ)
    (r1 r2 : Request) (s : σ) (log : List Call)
    (h1 : r1.Header.Get "api_key" = "") (h2 : r2.Header.Get "api_key" = "")
    (hagree : beforeFirstComma (r1.Header.Get "X-Forwarded-For") =
      beforeFirstComma (r2.Header.Get "X-Forwarded-For")) :
    (',' ∉ (beforeFirstComma (r1.Header.Get "X-Forwarded-For")).data ∧
      (r1.Header.Get "X-Forwarded-For" = beforeFirstComma (r1.Header.Get "X-Forwarded-For") ∨
        ∃ rest : String, r1.Header.Get "X-Forwarded-For" =
          beforeFirstComma (r1.Header.Get "X-Forwarded-For") ++ "," ++ rest)) ∧
    (Middleware rl.recorded r1 (s, log)).2.2 =
      (if beforeFirstComma (r1.Header.Get "X-Forwarded-For") = "" then log
        else log ++ [Call.StoreIP (beforeFirstComma (r1.Header.Get "X-Forwarded-For"))
          rl.IPTimeRemaining]) ∧
    Middleware rl r1 s = Middleware rl r2 s ∧
    Middleware rl.recorded r1 (s, log) = Middleware rl.recorded r2 (s, log) := by
  have hf1 := firstElement_eq r1
  have hf2 := firstElement_eq r2
  rw [← hagree] at hf2
  refine ⟨beforeFirstComma_spec _, ?_, ?_, ?_⟩
  · by_cases hip : beforeFirstComma (r1.Header.Get "X-Forwarded-For") = ""
    · rw [if_pos hip]
      rw [hip] at hf1
      rw [Middleware_noIdentity rl.recorded r1 (s, log) h1 hf1]
    · rw [if_neg hip, recorded_ip rl r1 s log _ h1 hf1 hip]
  · by_cases hip : beforeFirstComma (r1.Header.Get "X-Forwarded-For") = ""
    · rw [hip] at hf1 hf2
      rw [Middleware_noIdentity rl r1 s h1 hf1, Middleware_noIdentity rl r2 s h2 hf2]
    · rw [Middleware_ip rl r1 s _ h1 hf1 hip, Middleware_ip rl r2 s _ h2 hf2 hip]
  · by_cases hip : beforeFirstComma (r1.Header.Get "X-Forwarded-For") = ""
    · rw [hip] at hf1 hf2
      rw [Middleware_noIdentity rl.recorded r1 (s, log) h1 hf1,
        Middleware_noIdentity rl.recorded r2 (s, log) h2 hf2]
    · rw [recorded_ip rl r1 s log _ h1 hf1 hip, recorded_ip rl r2 s log _ h2 hf2 hip]

/-- Witness of C6: two proxy chains with the same originating hop. -/
theorem C6_ip_is_the_part_before_the_first_comma_witness :
    beforeFirstComma ((mkRequest "1.2.3.4, 10.0.0.1" "").Header.Get "X-Forwarded-For") =
      beforeFirstComma ((mkRequest "1.2.3.4,7.7.7.7,8.8.8.8" "").Header.Get "X-Forwarded-For") ∧
    Middleware (New (testConfig 2 5) mockDatabase) (mkRequest "1.2.3.4, 10.0.0.1" "")
        newMockDB =
      Middleware (New (testConfig 2 5) mockDatabase) (mkRequest "1.2.3.4,7.7.7.7,8.8.8.8" "")
        newMockDB :=
  ⟨by decide,
    (C6_ip_is_the_part_before_the_first_comma (New (testConfig 2 5) mockDatabase)
      (mkRequest "1.2.3.4, 10.0.0.1" "") (mkRequest "1.2.3.4,7.7.7.7,8.8.8.8" "") newMockDB []
      (by decide) (by decide) (by decide)).2.2.1⟩

/-! ## The script and the store -/

theorem script_of_ok (key : String) (e : Int) (st : Store)
    (hok : nextCount st key ≤ maxInt64) :
    (script key e st).1 = some (nextCount st key) := by
  unfold script INCR
  unfold nextCount at hok ⊢
  cases hk : st key with
  | none => simp
  | some ent =>
    have hlt : ent.count < maxInt64 := by
      rw [hk] at hok
      simp only at hok
      omega
    simp only [hlt, if_true]
    split_ifs <;> rfl

theorem script_of_overflow (key : String) (e : Int) (st : Store)
    (hover : maxInt64 < nextCount st key) :
    script key e st = (none, st) := by
  unfold script INCR
  unfold nextCount at hover
  cases hk : st key with
  | none =>
    rw [hk] at hover
    simp only [maxInt64] at hover
    omega
  | some ent =>
    have hlt : ¬ ent.count < maxInt64 := by
      rw [hk] at hover
      simp only at hover
      omega
    simp only [hlt, if_false]

theorem script_snd (key : String) (e : Int) (he : 1 ≤ e) (st : Store)
    (hok : nextCount st key ≤ maxInt64) (k : String) :
    (script key e st).2 k =
      if k = key then
        some { count := nextCount st key,
               ttl := if nextCount st key = 1 then some e else st.ttl key }
      else st k := by
  have he2 : ¬ e ≤ 0 := by omega
  unfold script INCR Store.ttl
  unfold nextCount at hok ⊢
  cases hk : st key with
  | none =>
    by_cases hkk : k = key <;> simp [EXPIRE, Store.set, he2, hkk]
  | some ent =>
    have hlt : ent.count < maxInt64 := by
      rw [hk] at hok
      simp only at hok
      omega
    by_cases hc : ent.count + 1 = 1
    · by_cases hkk : k = key <;> simp [EXPIRE, Store.set, he2, hkk, hc, hlt]
    · by_cases hkk : k = key <;> simp [Store.set, hkk, hc, hlt]

theorem script_snd_of_ne_one (key : String) (e : Int) (st : Store)
    (hok : nextCount st key ≤ maxInt64) (hc : nextCount st key ≠ 1) (k : String) :
    (script key e st).2 k =
      if k = key then some { count := nextCount st key, ttl := st.ttl key } else st k := by
  unfold script INCR Store.ttl
  unfold nextCount at hok hc ⊢
  cases hk : st key with
  | none => simp [hk] at hc
  | some ent =>
    have hlt : ent.count < maxInt64 := by
      rw [hk] at hok
      simp only at hok
      omega
    have hc2 : ¬ ent.count + 1 = 1 := by simpa [hk] using hc
    by_cases hkk : k = key <;> simp [Store.set, hkk, hc2, hlt]

theorem script_other (key : String) (e : Int) (st : Store) (k : String) (hk : k ≠ key) :
    (script key e st).2 k = st k := by
  unfold script INCR
  cases hkey : st key with
  | none =>
    simp [EXPIRE, Store.set, hk]
    split_ifs <;> simp [Store.set, hk]
  | some ent =>
    by_cases hlt : ent.count < maxInt64
    · by_cases hc : ent.count + 1 = 1
      · simp [EXPIRE, Store.set, hk, hc, hlt]
        split_ifs <;> simp [Store.set, hk]
      · simp [Store.set, hk, hc, hlt]
    · simp [hlt]

theorem RunScript_eq (key : String) (e : Int) (st : Store) :
    scriptClient.RunScript key e st =
      (((if nextCount st key ≤ maxInt64 then Value.int64 (nextCount st key) else Value.nil),
        (if nextCount st key ≤ maxInt64 then none else some overflowErr)),
        (script key e st).2) := by
  by_cases hok : nextCount st key ≤ maxInt64
  · have h1 := script_of_ok key e st hok
    simp only [scriptClient, hok, if_true]
    generalize script key e st = res at h1 ⊢
    obtain ⟨c, st1⟩ := res
    simp only at h1
    subst h1
    rfl
  · have h1 := script_of_overflow key e st (by omega)
    simp only [scriptClient, hok, if_false, h1]

theorem StoreIP_script (cfg : RedisConfig) (ip : String) (e : Int) (st : Store) :
    (database.New cfg scriptClient).StoreIP ip e st =
      (bumpReply st (cfg.IPKeyPrefix ++ ip), (script (cfg.IPKeyPrefix ++ ip) e st).2) := by
  simp only [RedisClient.StoreIP, database.New, RunScript_eq, bumpReply]
  by_cases hok : nextCount st (cfg.IPKeyPrefix ++ ip) ≤ maxInt64 <;> simp [hok]

theorem StoreToken_script (cfg : RedisConfig) (token : String) (e : Int) (st : Store) :
    (database.New cfg scriptClient).StoreToken token e st =
      (bumpReply st (cfg.TokenKeyPrefix ++ token),
        (script (cfg.TokenKeyPrefix ++ token) e st).2) := by
  simp only [RedisClient.StoreToken, database.New, RunScript_eq, bumpReply]
  by_cases hok : nextCount st (cfg.TokenKeyPrefix ++ token) ≤ maxInt64 <;> simp [hok]

theorem bumpReply_of_ok (st : Store) (key : String) (hok : nextCount st key ≤ maxInt64) :
    bumpReply st key = (nextCount st key, none) := by
  simp [bumpReply, hok]

theorem bumpReply_of_overflow (st : Store) (key : String)
    (hover : maxInt64 < nextCount st key) :
    bumpReply st key = (0, some overflowErr) := by
  have : ¬ nextCount st key ≤ maxInt64 := by omega
  simp [bumpReply, this]

theorem bumpReply_congr (st1 st2 : Store) (key : String) (h : st1 key = st2 key) :
    bumpReply st1 key = bumpReply st2 key := by
  unfold bumpReply nextCount
  rw [h]

theorem Armed_empty : Armed Store.empty := by
  intro k ent h
  simp [Store.empty] at h

theorem Armed_script (key : String) (e : Int) (he : 1 ≤ e) (st : Store) (h : Armed st) :
    Armed (script key e st).2 := by
  by_cases hok : nextCount st key ≤ maxInt64
  · intro k ent hk
    rw [script_snd key e he st hok k] at hk
    by_cases hkk : k = key
    · rw [if_pos hkk] at hk
      cases hst : st key with
      | none =>
        simp [nextCount, Store.ttl, hst] at hk
        subst hk
        exact ⟨le_refl _, e, rfl, by omega⟩
      | some old =>
        obtain ⟨hc, t, ht, htpos⟩ := h key old hst
        have hne : ¬ old.count + 1 = 1 := by omega
        simp [nextCount, Store.ttl, hst, hne] at hk
        subst hk
        exact ⟨by simp; omega, t, ht, htpos⟩
    · rw [if_neg hkk] at hk
      exact h k ent hk
  · rw [script_of_overflow key e st (by omega)]
    exact h

theorem Armed_elapse (d : Nat) (st : Store) (h : Armed st) : Armed (elapse d st) := by
  intro k ent hk
  unfold elapse at hk
  cases hst : st k with
  | none => simp [hst] at hk
  | some old =>
    obtain ⟨hc, t, ht, htpos⟩ := h k old hst
    simp only [hst, ht] at hk
    by_cases hd : t ≤ (d : Int)
    · simp [hd] at hk
    · simp only [hd, if_false, Option.some.injEq] at hk
      subst hk
      exact ⟨hc, t - d, rfl, by simp; omega⟩

theorem Armed_step (cfg : RedisConfig) (x : Step) (hx : x.ok = true) (st : Store)
    (h : Armed st) : Armed (x.apply (database.New cfg scriptClient) st) := by
  cases x with
  | StoreIP ip e =>
    have he : 1 ≤ e := by simpa [Step.ok] using hx
    simp only [Step.apply, StoreIP_script]
    exact Armed_script _ e he st h
  | StoreToken token e =>
    have he : 1 ≤ e := by simpa [Step.ok] using hx
    simp only [Step.apply, StoreToken_script]
    exact Armed_script _ e he st h
  | elapse d => exact Armed_elapse d st h

theorem Armed_runSteps (cfg : RedisConfig) (steps : List Step)
    (hok : ∀ x ∈ steps, x.ok = true) (st : Store) (h : Armed st) :
    Armed (runSteps (database.New cfg scriptClient) steps st) := by
  induction steps generalizing st with
  | nil => exact h
  | cons x xs ih =>
    exact ih (fun y hy => hok y (List.mem_cons_of_mem _ hy)) _
      (Armed_step cfg x (hok x (List.mem_cons_self _ _)) st h)

theorem nextCount_eq_one_iff (st : Store) (h : Armed st) (key : String) :
    nextCount st key = 1 ↔ st key = none := by
  unfold nextCount
  cases hst : st key with
  | none => simp
  | some old =>
    have := (h key old hst).1
    simp
    omega

theorem default_keys_ne (t i : String) : "/rl/token/" ++ t ≠ "/rl/ip/" ++ i := by
  intro h
  have hd := congrArg String.data h
  have ht : ("/rl/token/" : String).data = ['/', 'r', 'l', '/', 't', 'o', 'k', 'e', 'n', '/'] := rfl
  have hi : ("/rl/ip/" : String).data = ['/', 'r', 'l', '/', 'i', 'p', '/'] := rfl
  rw [String.data_append, String.data_append, ht, hi] at hd
  simp at hd

/-- C7: with the default key fields `TokenKeyPrefix = "/rl/token/"` and
`IPKeyPrefix = "/rl/ip/"`, for every token `t` and every IP `i` (also `t = i`)
the key of `StoreToken` differs from the key of `StoreIP`; a token bump leaves
the entry under every IP key as it was and does not change what the next IP
bump returns, and the other way round. -/
theorem C7_default_key_spaces_are_disjoint (t i : String) (e1 e2 : Int) (st : Store) :
    (database.New {} scriptClient).TokenKeyPrefix = "/rl/token/" ∧
    (database.New {} scriptClient).IPKeyPrefix = "/rl/ip/" ∧
    (database.New {} scriptClient).TokenKeyPrefix ++ t ≠
      (database.New {} scriptClient).IPKeyPrefix ++ i ∧
    ((database.New {} scriptClient).StoreToken t e1 st).2 ("/rl/ip/" ++ i) =
      st ("/rl/ip/" ++ i) ∧
    ((database.New {} scriptClient).StoreIP i e2
        ((database.New {} scriptClient).StoreToken t e1 st).2).1 =
      ((database.New {} scriptClient).StoreIP i e2 st).1 ∧
    ((database.New {} scriptClient).StoreIP i e1 st).2 ("/rl/token/" ++ t) =
      st ("/rl/token/" ++ t) ∧
    ((database.New {} scriptClient).StoreToken t e2
        ((database.New {} scriptClient).StoreIP i e1 st).2).1 =
      ((database.New {} scriptClient).StoreToken t e2 st).1 := by
  have hne := default_keys_ne t i
  have h1 : (script ("/rl/token/" ++ t) e1 st).2 ("/rl/ip/" ++ i) = st ("/rl/ip/" ++ i) :=
    script_other _ e1 st _ (Ne.symm hne)
  have h2 : (script ("/rl/ip/" ++ i) e1 st).2 ("/rl/token/" ++ t) = st ("/rl/token/" ++ t) :=
    script_other _ e1 st _ hne
  refine ⟨rfl, rfl, hne, ?_, ?_, ?_, ?_⟩
  · rw [StoreToken_script]; exact h1
  · rw [StoreToken_script, StoreIP_script, StoreIP_script]
    exact bumpReply_congr _ st ("/rl/ip/" ++ i) h1
  · rw [StoreIP_script]; exact h2
  · rw [StoreIP_script, StoreToken_script, StoreToken_script]
    exact bumpReply_congr _ st ("/rl/token/" ++ t) h2

/-- C8: in the store model where the script runs as one step and the passing of
time removes the keys whose time-to-live ran out, for every state reached from
the empty store by bumps with a window of at least one second and by the passing
of time, every key present has a time-to-live armed; and for every
`expireSec ≥ 1` a bump (`StoreIP` or `StoreToken`) on such a state leaves under
its key the time-to-live `expireSec` if the key was absent and the time-to-live
that was armed before, unchanged, if it was present. When the next count fits a
counter the bump returns it as its post-increment count `c` without error and
stores it, and `c = 1` holds exactly when the key was absent, so the
time-to-live is set once per window and exactly at post-increment count 1; when
it does not fit, the bump returns an error and the store stays as it was. -/
theorem C8_every_counter_has_a_ttl (cfg : RedisConfig) (steps : List Step)
    (hok : ∀ x ∈ steps, x.ok = true) (id : String) (expireSec : Int) (he : 1 ≤ expireSec) :
    (∀ k ent, runSteps (database.New cfg scriptClient) steps Store.empty k = some ent →
      ∃ t, ent.ttl = some t ∧ 0 < t) ∧
    (∀ key op,
      (key = cfg.IPKeyPrefix ++ id ∧ op = (database.New cfg scriptClient).StoreIP id expireSec) ∨
      (key = cfg.TokenKeyPrefix ++ id ∧
        op = (database.New cfg scriptClient).StoreToken id expireSec) →
      ((op (runSteps (database.New cfg scriptClient) steps Store.empty)).2).ttl key =
        (if runSteps (database.New cfg scriptClient) steps Store.empty key = none
          then some expireSec
          else (runSteps (database.New cfg scriptClient) steps Store.empty).ttl key) ∧
      (runSteps (database.New cfg scriptClient) steps Store.empty key ≠ none →
        ∃ t, 0 < t ∧
          (runSteps (database.New cfg scriptClient) steps Store.empty).ttl key = some t) ∧
      (nextCount (runSteps (database.New cfg scriptClient) steps Store.empty) key ≤ maxInt64 →
        ∃ c : Int,
          (op (runSteps (database.New cfg scriptClient) steps Store.empty)).1 = (c, none) ∧
          c = nextCount (runSteps (database.New cfg scriptClient) steps Store.empty) key ∧
          (c = 1 ↔ runSteps (database.New cfg scriptClient) steps Store.empty key = none) ∧
          (op (runSteps (database.New cfg scriptClient) steps Store.empty)).2 key =
            some { count := c,
                   ttl := if c = 1 then some expireSec
                     else (runSteps (database.New cfg scriptClient) steps Store.empty).ttl key } ∧
          (c ≠ 1 → ∃ t, 0 < t ∧
            (runSteps (database.New cfg scriptClient) steps Store.empty).ttl key = some t ∧
            ((op (runSteps (database.New cfg scriptClient) steps Store.empty)).2).ttl key =
              some t) ∧
          (c = 1 →
            ((op (runSteps (database.New cfg scriptClient) steps Store.empty)).2).ttl key =
              some expireSec)) ∧
      (maxInt64 < nextCount (runSteps (database.New cfg scriptClient) steps Store.empty) key →
        (op (runSteps (database.New cfg scriptClient) steps Store.empty)).1 =
          (0, some overflowErr) ∧
        (op (runSteps (database.New cfg scriptClient) steps Store.empty)).2 =
          runSteps (database.New cfg scriptClient) steps Store.empty)) := by
  have harmed := Armed_runSteps cfg steps hok Store.empty Armed_empty
  generalize runSteps (database.New cfg scriptClient) steps Store.empty = st at harmed ⊢
  refine ⟨fun k ent hk => (harmed k ent hk).2, ?_⟩
  intro key op hop
  have hres : op st = (bumpReply st key, (script key expireSec st).2) := by
    rcases hop with ⟨hkey, hopeq⟩ | ⟨hkey, hopeq⟩
    · rw [hopeq, hkey, StoreIP_script]
    · rw [hopeq, hkey, StoreToken_script]
  have hiff := nextCount_eq_one_iff st harmed key
  have hold : st key ≠ none → ∃ t, 0 < t ∧ st.ttl key = some t := by
    intro hpresent
    obtain ⟨old, hold⟩ := Option.ne_none_iff_exists'.1 hpresent
    obtain ⟨_, t, ht, htpos⟩ := harmed key old hold
    exact ⟨t, htpos, by simp [Store.ttl, hold, ht]⟩
  have hsucc : nextCount st key ≤ maxInt64 →
      (script key expireSec st).2 key =
        some { count := nextCount st key,
               ttl := if nextCount st key = 1 then some expireSec else st.ttl key } := by
    intro hfit
    have hpost := script_snd key expireSec he st hfit key
    rwa [if_pos rfl] at hpost
  have hfail : maxInt64 < nextCount st key → (script key expireSec st).2 = st := by
    intro hover
    rw [script_of_overflow key expireSec st hover]
  refine ⟨?_, hold, ?_, ?_⟩
  · rw [hres]
    by_cases hfit : nextCount st key ≤ maxInt64
    · by_cases habs : st key = none
      · have hc : nextCount st key = 1 := hiff.2 habs
        simp [Store.ttl, hsucc hfit, hc, habs]
      · have hc : ¬ nextCount st key = 1 := fun h => habs (hiff.1 h)
        rw [if_neg habs]
        simp only [Store.ttl, hsucc hfit, if_neg hc, Option.bind]
    · have hover : maxInt64 < nextCount st key := by omega
      have habs : st key ≠ none := by
        intro habs
        have := hiff.2 habs
        simp only [maxInt64] at hover
        omega
      show ((script key expireSec st).2).ttl key = _
      rw [hfail hover, if_neg habs]
  · intro hfit
    refine ⟨nextCount st key, by rw [hres, bumpReply_of_ok st key hfit], rfl, hiff,
      by rw [hres]; exact hsucc hfit, ?_, ?_⟩
    · intro hc
      have hpresent : st key ≠ none := fun hnone => hc (hiff.2 hnone)
      obtain ⟨t, htpos, httl⟩ := hold hpresent
      refine ⟨t, htpos, httl, ?_⟩
      rw [hres]
      simp only [Store.ttl, hsucc hfit, if_neg hc, Option.bind]
      simpa [Store.ttl] using httl
    · intro hc
      rw [hres]
      simp [Store.ttl, hsucc hfit, hc]
  · intro hover
    rw [hres, bumpReply_of_overflow st key hover]
    exact ⟨rfl, hfail hover⟩

/-- Witness of C8: two bumps of one IP in a 60-second window, ten seconds apart,
and a token bump; then a bump of the same IP. -/
theorem C8_every_counter_has_a_ttl_witness :
    (∀ x ∈ [Step.StoreIP "1.2.3.4" 60, Step.elapse 10, Step.StoreIP "1.2.3.4" 60,
        Step.StoreToken "token123" 60], x.ok = true) ∧
    ((1 : Int) ≤ 60) ∧
    (∀ k ent, runSteps (database.New {} scriptClient)
        [Step.StoreIP "1.2.3.4" 60, Step.elapse 10, Step.StoreIP "1.2.3.4" 60,
          Step.StoreToken "token123" 60] Store.empty k = some ent →
      ∃ t, ent.ttl = some t ∧ 0 < t) :=
  ⟨by decide, by decide,
    (C8_every_counter_has_a_ttl {}
      [Step.StoreIP "1.2.3.4" 60, Step.elapse 10, Step.StoreIP "1.2.3.4" 60,
        Step.StoreToken "token123" 60] (by decide) "1.2.3.4" 60 (by decide)).1⟩

theorem elapse_removes (d : Nat) (st : Store) (key : String) (c t : Int)
    (h : st key = some { count := c, ttl := some t }) (hd : t ≤ (d : Int)) :
    elapse d st key = none := by
  simp [elapse, h, hd]

theorem callN_script (key : String) (e : Int) (he : 1 ≤ e) (st : Store)
    (h : st key = none) (op : Store → (Int × Option Error) × Store)
    (hop : ∀ st1, op st1 = (bumpReply st1 key, (script key e st1).2)) (n : Nat)
    (hn : (n : Int) ≤ maxInt64) :
    callN op n st key =
      if n = 0 then none else some { count := (n : Int), ttl := some e } := by
  induction n with
  | zero => simpa [callN] using h
  | succ n ih =>
    have ih2 := ih (by push_cast at hn; omega)
    have hfit : nextCount (callN op n st) key ≤ maxInt64 := by
      by_cases hn0 : n = 0
      · subst hn0
        simp [callN, nextCount, h, maxInt64]
      · rw [if_neg hn0] at ih2
        simp only [nextCount, ih2]
        push_cast at hn
        omega
    simp only [callN, hop, script_snd key e he _ hfit key, if_pos rfl]
    by_cases hn0 : n = 0
    · subst hn0
      simp [callN, nextCount, h]
    · rw [if_neg hn0] at ih2
      have hne : ¬ ((n : Int) + 1 = 1) := by omega
      simp [nextCount, Store.ttl, ih2, hne]

theorem counts_script (key : String) (e : Int) (he : 1 ≤ e) (st : Store)
    (h : st key = none) (op : Store → (Int × Option Error) × Store)
    (hop : ∀ st1, op st1 = (bumpReply st1 key, (script key e st1).2)) (upto : Nat)
    (hupto : (upto : Int) ≤ maxInt64) :
    CountsFrom op st upto := by
  intro n hlt
  have hk := callN_script key e he st h op hop n (by omega)
  have hnext : nextCount (callN op n st) key = (n : Int) + 1 := by
    by_cases hn : n = 0
    · subst hn
      simp [nextCount, callN, h]
    · rw [if_neg hn] at hk
      simp [nextCount, hk]
  rw [hop, bumpReply_of_ok _ _ (by rw [hnext]; omega), hnext]

theorem runSteps_bumps (cfg : RedisConfig) (ip : String) (e : Int) (n : Nat) :
    ∀ (st : Store) (c : Int),
      st (cfg.IPKeyPrefix ++ ip) = some { count := c, ttl := some e } → 1 ≤ c →
      c + (n : Int) ≤ maxInt64 →
      runSteps (database.New cfg scriptClient) (List.replicate n (Step.StoreIP ip e)) st
          (cfg.IPKeyPrefix ++ ip) =
        some { count := c + (n : Int), ttl := some e } := by
  induction n with
  | zero =>
    intro st c hst _ _
    simpa [runSteps] using hst
  | succ n ih =>
    intro st c hst hc hfit
    have hnext : nextCount st (cfg.IPKeyPrefix ++ ip) = c + 1 := by
      simp [nextCount, hst]
    have hstep : (Step.StoreIP ip e).apply (database.New cfg scriptClient) st
        (cfg.IPKeyPrefix ++ ip) = some { count := c + 1, ttl := some e } := by
      simp only [Step.apply, StoreIP_script]
      rw [script_snd_of_ne_one _ e st (by rw [hnext]; push_cast at hfit; omega)
        (by rw [hnext]; omega), if_pos rfl, hnext]
      simp [Store.ttl, hst]
    have := ih _ (c + 1) hstep (by omega) (by push_cast at hfit; omega)
    rw [List.replicate_succ, runSteps, this]
    have hsum : c + 1 + (n : Int) = c + ((n + 1 : Nat) : Int) := by
      push_cast
      omega
    rw [hsum]

theorem runSteps_bumps_from_empty (cfg : RedisConfig) (ip : String) (e : Int) (he : 1 ≤ e)
    (n : Nat) (hpos : 1 ≤ n) (hfit : (n : Int) ≤ maxInt64) :
    runSteps (database.New cfg scriptClient) (List.replicate n (Step.StoreIP ip e))
        Store.empty (cfg.IPKeyPrefix ++ ip) =
      some { count := (n : Int), ttl := some e } := by
  obtain ⟨m, rfl⟩ : ∃ m, n = m + 1 := ⟨n - 1, by omega⟩
  have hnext : nextCount Store.empty (cfg.IPKeyPrefix ++ ip) = 1 := by
    simp [nextCount, Store.empty]
  have hstep : (Step.StoreIP ip e).apply (database.New cfg scriptClient) Store.empty
      (cfg.IPKeyPrefix ++ ip) = some { count := 1, ttl := some e } := by
    simp only [Step.apply, StoreIP_script]
    rw [script_snd _ e he Store.empty (by rw [hnext]; simp [maxInt64]), if_pos rfl, hnext]
    simp
  have := runSteps_bumps cfg ip e m _ 1 hstep (le_refl _) (by push_cast at hfit; omega)
  rw [List.replicate_succ, runSteps, this]
  have hsum : (1 : Int) + (m : Int) = ((m + 1 : Nat) : Int) := by
    push_cast
    omega
  rw [hsum]

/-- C9, as stated, fails at a counter holding the largest value: after
`2^63 - 1` bumps of the IP "a" in one window the key "/rl/ip/a" is live with
count `2^63 - 1`, and the next `StoreIP` does not return that count plus 1: the
`INCR` of the script is refused, `StoreIP` returns count 0 with an error and the
counter stays as it was. The same holds in the store that holds just this key. -/
theorem C9_largest_counter_counterexample :
    runSteps (database.New {} scriptClient)
        (List.replicate 9223372036854775807 (Step.StoreIP "a" 60)) Store.empty "/rl/ip/a" =
      some { count := 9223372036854775807, ttl := some 60 } ∧
    ((database.New {} scriptClient).StoreIP "a" 60
        (runSteps (database.New {} scriptClient)
          (List.replicate 9223372036854775807 (Step.StoreIP "a" 60)) Store.empty)).1 =
      (0, some overflowErr) ∧
    ((database.New {} scriptClient).StoreIP "a" 60
        (runSteps (database.New {} scriptClient)
          (List.replicate 9223372036854775807 (Step.StoreIP "a" 60)) Store.empty)).1 ≠
      (9223372036854775807 + 1, none) ∧
    ((database.New {} scriptClient).StoreIP "a" 60
        (Store.empty.set "/rl/ip/a"
          (some { count := 9223372036854775807, ttl := some 60 }))).1 =
      (0, some overflowErr) ∧
    ((database.New {} scriptClient).StoreIP "a" 60
        (Store.empty.set "/rl/ip/a"
          (some { count := 9223372036854775807, ttl := some 60 }))).2 "/rl/ip/a" =
      some { count := 9223372036854775807, ttl := some 60 } := by
  have hreach : runSteps (database.New {} scriptClient)
      (List.replicate 9223372036854775807 (Step.StoreIP "a" 60)) Store.empty "/rl/ip/a" =
      some { count := 9223372036854775807, ttl := some 60 } :=
    runSteps_bumps_from_empty {} "a" 60 (by decide) 9223372036854775807 (by decide)
      (by decide)
  have hfail : ∀ st : Store,
      st "/rl/ip/a" = some { count := 9223372036854775807, ttl := some 60 } →
      (database.New {} scriptClient).StoreIP "a" 60 st = ((0, some overflowErr), st) := by
    intro st hst
    have hover : maxInt64 < nextCount st "/rl/ip/a" := by
      simp only [nextCount, hst, maxInt64]
      decide
    rw [StoreIP_script]
    show (bumpReply st "/rl/ip/a", (script "/rl/ip/a" 60 st).2) = _
    rw [bumpReply_of_overflow st _ hover, script_of_overflow _ 60 st hover]
  generalize runSteps (database.New {} scriptClient)
      (List.replicate 9223372036854775807 (Step.StoreIP "a" 60)) Store.empty = st0
    at hreach ⊢
  have hset : (Store.empty.set "/rl/ip/a"
      (some { count := 9223372036854775807, ttl := some 60 })) "/rl/ip/a" =
      some { count := 9223372036854775807, ttl := some 60 } := by
    simp [Store.set]
  refine ⟨hreach, by rw [hfail st0 hreach], ?_, by rw [hfail _ hset], ?_⟩
  · rw [hfail st0 hreach]
    intro h
    have h2 := congrArg (fun x => x.2) h
    simp at h2
  · rw [hfail _ hset]
    exact hset

/-- C9, amended: in the same store model, the count `StoreIP`/`StoreToken`
returns for a key that is live with a count below `2^63 - 1` is its stored count
plus 1 (at `2^63 - 1` the bump returns count 0 with an error and changes
nothing), and the count returned for a key that is absent (never bumped, or
expired) is exactly 1; so successive bumps of an absent key in a window of at
least one second return 1, 2, 3, ... with none skipped or repeated, as far as
`2^63 - 1`. Consequently, for every limit of at least 1: when a request for an
identity is rejected with 429 in a reachable state, its counter has a
time-to-live `t` armed, and once `t` seconds or more have passed the counter is
gone and the next request of that identity is allowed again. -/
theorem C9_counts_step_by_one_below_the_largest (cfg : RedisConfig)
    (rlcfg : RateLimiterConfig) (steps : List Step) (hok : ∀ x ∈ steps, x.ok = true)
    (r : Request) (key : String)
    (hid : (r.Header.Get "api_key" ≠ "" ∧ key = cfg.TokenKeyPrefix ++ r.Header.Get "api_key" ∧
          1 ≤ rlcfg.MaxRequestPerToken) ∨
        (r.Header.Get "api_key" = "" ∧
          ∃ ip, firstElement r = some ip ∧ ip ≠ "" ∧ key = cfg.IPKeyPrefix ++ ip ∧
            1 ≤ rlcfg.MaxRequestsPerIP))
    (hrej : (Middleware (New rlcfg (database.New cfg scriptClient).database) r
      (runSteps (database.New cfg scriptClient) steps Store.empty)).1.status = some 429) :
    (∀ (st : Store) (id : String) (e : Int) (ent : Entry),
      (st (cfg.IPKeyPrefix ++ id) = some ent → ent.count < maxInt64 →
        ((database.New cfg scriptClient).StoreIP id e st).1 = (ent.count + 1, none)) ∧
      (st (cfg.TokenKeyPrefix ++ id) = some ent → ent.count < maxInt64 →
        ((database.New cfg scriptClient).StoreToken id e st).1 = (ent.count + 1, none)) ∧
      (st (cfg.IPKeyPrefix ++ id) = some ent → maxInt64 ≤ ent.count →
        (database.New cfg scriptClient).StoreIP id e st = ((0, some overflowErr), st)) ∧
      (st (cfg.TokenKeyPrefix ++ id) = some ent → maxInt64 ≤ ent.count →
        (database.New cfg scriptClient).StoreToken id e st = ((0, some overflowErr), st))) ∧
    (∀ (st : Store) (id : String) (e : Int),
      (st (cfg.IPKeyPrefix ++ id) = none →
        ((database.New cfg scriptClient).StoreIP id e st).1 = (1, none)) ∧
      (st (cfg.TokenKeyPrefix ++ id) = none →
        ((database.New cfg scriptClient).StoreToken id e st).1 = (1, none))) ∧
    (∀ (st : Store) (id : String) (e : Int) (upto : Nat), 1 ≤ e → (upto : Int) ≤ maxInt64 →
      (st (cfg.IPKeyPrefix ++ id) = none →
        CountsFrom ((database.New cfg scriptClient).StoreIP id e) st upto) ∧
      (st (cfg.TokenKeyPrefix ++ id) = none →
        CountsFrom ((database.New cfg scriptClient).StoreToken id e) st upto)) ∧
    (∃ t : Int, 0 < t ∧
      ((Middleware (New rlcfg (database.New cfg scriptClient).database) r
        (runSteps (database.New cfg scriptClient) steps Store.empty)).2).ttl key = some t ∧
      ∀ d : Nat, t ≤ (d : Int) →
        elapse d (Middleware (New rlcfg (database.New cfg scriptClient).database) r
          (runSteps (database.New cfg scriptClient) steps Store.empty)).2 key = none ∧
        (Middleware (New rlcfg (database.New cfg scriptClient).database) r
          (elapse d (Middleware (New rlcfg (database.New cfg scriptClient).database) r
            (runSteps (database.New cfg scriptClient) steps Store.empty)).2)).1 =
          Outcome.ServeHTTP) := by
  have harmed := Armed_runSteps cfg steps hok Store.empty Armed_empty
  generalize runSteps (database.New cfg scriptClient) steps Store.empty = st0 at harmed hrej ⊢
  have hlive : ∀ (st : Store) (k : String) (ent : Entry), st k = some ent →
      ent.count < maxInt64 → bumpReply st k = (ent.count + 1, none) := by
    intro st k ent h hlt
    have hn : nextCount st k = ent.count + 1 := by simp [nextCount, h]
    rw [bumpReply_of_ok st k (by rw [hn]; omega), hn]
  have hfull : ∀ (st : Store) (k : String) (e : Int) (ent : Entry), st k = some ent →
      maxInt64 ≤ ent.count →
      (bumpReply st k, (script k e st).2) = ((0, some overflowErr), st) := by
    intro st k e ent h hge
    have hn : nextCount st k = ent.count + 1 := by simp [nextCount, h]
    have hover : maxInt64 < nextCount st k := by rw [hn]; omega
    rw [bumpReply_of_overflow st k hover, script_of_overflow k e st hover]
  have habsent : ∀ (st : Store) (k : String), st k = none → bumpReply st k = (1, none) := by
    intro st k h
    have hn : nextCount st k = 1 := by simp [nextCount, h]
    rw [bumpReply_of_ok st k (by rw [hn]; simp [maxInt64]), hn]
  refine ⟨?_, ?_, ?_, ?_⟩
  · intro st id e ent
    refine ⟨?_, ?_, ?_, ?_⟩
    · intro h hlt
      rw [StoreIP_script]
      exact hlive st _ ent h hlt
    · intro h hlt
      rw [StoreToken_script]
      exact hlive st _ ent h hlt
    · intro h hge
      rw [StoreIP_script]
      exact hfull st _ e ent h hge
    · intro h hge
      rw [StoreToken_script]
      exact hfull st _ e ent h hge
  · intro st id e
    constructor
    · intro h
      rw [StoreIP_script]
      exact habsent st _ h
    · intro h
      rw [StoreToken_script]
      exact habsent st _ h
  · intro st id e upto he hupto
    exact ⟨fun h => counts_script _ e he st h _ (fun st1 => StoreIP_script cfg id e st1)
        upto hupto,
      fun h => counts_script _ e he st h _ (fun st1 => StoreToken_script cfg id e st1)
        upto hupto⟩
  · have hM : ∃ max e : Int, 1 ≤ max ∧ ∀ st : Store,
        Middleware (New rlcfg (database.New cfg scriptClient).database) r st =
          (decision (bumpReply st key) max, (script key e st).2) := by
      rcases hid with ⟨htoken, hkey, hmax⟩ | ⟨htoken, ip, hfirst, hip, hkey, hmax⟩
      · refine ⟨rlcfg.MaxRequestPerToken, rlcfg.TimePerToken, hmax, fun st => ?_⟩
        rw [Middleware_token _ r st htoken, hkey]
        simp only [New, RedisClient.database, StoreToken_script]
      · refine ⟨rlcfg.MaxRequestsPerIP, rlcfg.TimePerIP, hmax, fun st => ?_⟩
        rw [Middleware_ip _ r st ip htoken hfirst hip, hkey]
        simp only [New, RedisClient.database, StoreIP_script]
    obtain ⟨max, e, hmax, hM⟩ := hM
    rw [hM st0] at hrej ⊢
    have hfit : nextCount st0 key ≤ maxInt64 := by
      by_contra hnot
      rw [bumpReply_of_overflow st0 key (by omega),
        decision_of_error _ _ (by simp)] at hrej
      simp [Outcome.status, http.StatusInternalServerError] at hrej
    rw [bumpReply_of_ok st0 key hfit] at hrej
    have hgt : nextCount st0 key > max := by
      by_contra hle
      rw [decision_of_count, if_neg hle] at hrej
      simp [Outcome.status] at hrej
    have hne : nextCount st0 key ≠ 1 := by omega
    have hpresent : st0 key ≠ none := fun hnone =>
      hne ((nextCount_eq_one_iff st0 harmed key).2 hnone)
    obtain ⟨old, hold⟩ := Option.ne_none_iff_exists'.1 hpresent
    obtain ⟨_, t, ht, htpos⟩ := harmed key old hold
    have httl : st0.ttl key = some t := by simp [Store.ttl, hold, ht]
    have hpost : (script key e st0).2 key =
        some { count := nextCount st0 key, ttl := some t } := by
      rw [script_snd_of_ne_one key e st0 hfit hne key, if_pos rfl, httl]
    refine ⟨t, htpos, by simp [Store.ttl, hpost], ?_⟩
    intro d hd
    have hgone := elapse_removes d (script key e st0).2 key _ t hpost hd
    refine ⟨hgone, ?_⟩
    rw [hM, habsent _ key hgone, decision_of_count, if_neg (by omega)]

/-- Witness of C9 amended: limit 2 for IPs, two bumps of "1.2.3.4" in the store;
the third request is rejected, and allowed again after the window. -/
theorem C9_counts_step_by_one_below_the_largest_witness :
    (Middleware (New (testConfig 2 5) (database.New {} scriptClient).database)
      (mkRequest "1.2.3.4" "")
      (runSteps (database.New {} scriptClient)
        [Step.StoreIP "1.2.3.4" 60, Step.StoreIP "1.2.3.4" 60] Store.empty)).1.status =
      some 429 ∧
    (∃ t : Int, 0 < t ∧
      ((Middleware (New (testConfig 2 5) (database.New {} scriptClient).database)
        (mkRequest "1.2.3.4" "")
        (runSteps (database.New {} scriptClient)
          [Step.StoreIP "1.2.3.4" 60, Step.StoreIP "1.2.3.4" 60] Store.empty)).2).ttl
          "/rl/ip/1.2.3.4" = some t ∧
      ∀ d : Nat, t ≤ (d : Int) →
        elapse d (Middleware (New (testConfig 2 5) (database.New {} scriptClient).database)
          (mkRequest "1.2.3.4" "")
          (runSteps (database.New {} scriptClient)
            [Step.StoreIP "1.2.3.4" 60, Step.StoreIP "1.2.3.4" 60] Store.empty)).2
            "/rl/ip/1.2.3.4" = none ∧
        (Middleware (New (testConfig 2 5) (database.New {} scriptClient).database)
          (mkRequest "1.2.3.4" "")
          (elapse d (Middleware (New (testConfig 2 5) (database.New {} scriptClient).database)
            (mkRequest "1.2.3.4" "")
            (runSteps (database.New {} scriptClient)
              [Step.StoreIP "1.2.3.4" 60, Step.StoreIP "1.2.3.4" 60] Store.empty)).2)).1 =
          Outcome.ServeHTTP) :=
  ⟨by decide,
    (C9_counts_step_by_one_below_the_largest {} (testConfig 2 5)
      [Step.StoreIP "1.2.3.4" 60, Step.StoreIP "1.2.3.4" 60] (by decide)
      (mkRequest "1.2.3.4" "") "/rl/ip/1.2.3.4"
      (Or.inr ⟨by decide, "1.2.3.4", by decide, by decide, by decide, by decide⟩)
      (by decide)).2.2.2⟩

/-- C10: whenever the script run of `StoreIP` or `StoreToken` completes without
error but its result is not an `int64`, the method returns count 0 with a nil
error; and for every configured limit of at least 0 the handler, given that
result for the selected identity, lets the request through: the next handler is
invoked, neither 429 nor 500 is written. -/
theorem C10_non_integer_reply_counts_as_zero {σ : Type} (rc : RedisClient σ)
    (rlcfg : RateLimiterConfig) (r : Request) (s : σ)
    (hid : (r.Header.Get "api_key" ≠ "" ∧ 0 ≤ rlcfg.MaxRequestPerToken ∧
          (rc.client.RunScript (rc.TokenKeyPrefix ++ r.Header.Get "api_key")
            rlcfg.TimePerToken s).1.2 = none ∧
          ∀ n, (rc.client.RunScript (rc.TokenKeyPrefix ++ r.Header.Get "api_key")
            rlcfg.TimePerToken s).1.1 ≠ Value.int64 n) ∨
        (r.Header.Get "api_key" = "" ∧ 0 ≤ rlcfg.MaxRequestsPerIP ∧
          ∃ ip, firstElement r = some ip ∧ ip ≠ "" ∧
            (rc.client.RunScript (rc.IPKeyPrefix ++ ip) rlcfg.TimePerIP s).1.2 = none ∧
            ∀ n, (rc.client.RunScript (rc.IPKeyPrefix ++ ip) rlcfg.TimePerIP s).1.1 ≠
              Value.int64 n)) :
    (∀ (id : String) (e : Int) (s1 : σ),
      (rc.client.RunScript (rc.IPKeyPrefix ++ id) e s1).1.2 = none →
      (∀ n, (rc.client.RunScript (rc.IPKeyPrefix ++ id) e s1).1.1 ≠ Value.int64 n) →
      rc.StoreIP id e s1 = ((0, none), (rc.client.RunScript (rc.IPKeyPrefix ++ id) e s1).2)) ∧
    (∀ (id : String) (e : Int) (s1 : σ),
      (rc.client.RunScript (rc.TokenKeyPrefix ++ id) e s1).1.2 = none →
      (∀ n, (rc.client.RunScript (rc.TokenKeyPrefix ++ id) e s1).1.1 ≠ Value.int64 n) →
      rc.StoreToken id e s1 =
        ((0, none), (rc.client.RunScript (rc.TokenKeyPrefix ++ id) e s1).2)) ∧
    (Middleware (New rlcfg rc.database) r s).1 = Outcome.ServeHTTP ∧
    (Middleware (New rlcfg rc.database) r s).1.nextInvoked = true ∧
    (Middleware (New rlcfg rc.database) r s).1.status = none := by
  have hip : ∀ (id : String) (e : Int) (s1 : σ),
      (rc.client.RunScript (rc.IPKeyPrefix ++ id) e s1).1.2 = none →
      (∀ n, (rc.client.RunScript (rc.IPKeyPrefix ++ id) e s1).1.1 ≠ Value.int64 n) →
      rc.StoreIP id e s1 =
        ((0, none), (rc.client.RunScript (rc.IPKeyPrefix ++ id) e s1).2) := by
    intro id e s1 herr hval
    obtain ⟨⟨run⟩, ipPre, tokenPre⟩ := rc
    simp only [RedisClient.StoreIP] at herr hval ⊢
    generalize run (ipPre ++ id) e s1 = res at herr hval ⊢
    obtain ⟨⟨v, err⟩, s2⟩ := res
    simp only at herr hval
    subst herr
    cases v with
    | nil => simp
    | int64 n => exact absurd rfl (hval n)
    | string _ => simp
    | bool _ => simp
    | slice _ => simp
  have htok : ∀ (id : String) (e : Int) (s1 : σ),
      (rc.client.RunScript (rc.TokenKeyPrefix ++ id) e s1).1.2 = none →
      (∀ n, (rc.client.RunScript (rc.TokenKeyPrefix ++ id) e s1).1.1 ≠ Value.int64 n) →
      rc.StoreToken id e s1 =
        ((0, none), (rc.client.RunScript (rc.TokenKeyPrefix ++ id) e s1).2) := by
    intro id e s1 herr hval
    obtain ⟨⟨run⟩, ipPre, tokenPre⟩ := rc
    simp only [RedisClient.StoreToken] at herr hval ⊢
    generalize run (tokenPre ++ id) e s1 = res at herr hval ⊢
    obtain ⟨⟨v, err⟩, s2⟩ := res
    simp only at herr hval
    subst herr
    cases v with
    | nil => simp
    | int64 n => exact absurd rfl (hval n)
    | string _ => simp
    | bool _ => simp
    | slice _ => simp
  have hout : (Middleware (New rlcfg rc.database) r s).1 = Outcome.ServeHTTP := by
    rcases hid with ⟨htoken, hmax, herr, hval⟩ | ⟨htoken, hmax, ip, hfirst, hipne, herr, hval⟩
    · rw [Middleware_token _ r s htoken]
      simp only [New, RedisClient.database]
      rw [htok _ _ s herr hval, decision_of_count, if_neg (by omega)]
    · rw [Middleware_ip _ r s ip htoken hfirst hipne]
      simp only [New, RedisClient.database]
      rw [hip _ _ s herr hval, decision_of_count, if_neg (by omega)]
  refine ⟨hip, htok, hout, ?_, ?_⟩ <;> rw [hout] <;> rfl

/-- Witness of C10: a server that answers the script with the status string
"OK"; limit 0 for tokens. -/
theorem C10_non_integer_reply_counts_as_zero_witness :
    (database.New {} stringClient).StoreToken "token123" 60 () = ((0, none), ()) ∧
    (Middleware (New (testConfig 0 0) (database.New {} stringClient).database)
      (mkRequest "" "token123") ()).1 = Outcome.ServeHTTP :=
  ⟨by decide,
    (C10_non_integer_reply_counts_as_zero (database.New {} stringClient) (testConfig 0 0)
      (mkRequest "" "token123") ()
      (Or.inl ⟨by decide, by decide, rfl, fun n h => by cases h⟩)).2.2.1⟩

end ratelimiter
